import Mathlib

/-!
Verification of the build cache (`downward/cached_revision.py`) and the
fetch/merge engine (`lab/fetcher.py`) of the lab experiment framework.

The file system is modelled as a set of existing paths, a path being a list
of components.  External effects (the `hg archive` checkout, the `./build.py`
build, directory creation and removal) are modelled by explicit state passing
on this file-system value together with an event trace; the exit codes of the
two external commands are inputs (an `Env` value).  A fatal
`logging.critical` call terminates the operation, which is modelled by the
`Outcome.fatal` constructor carrying the message.
-/

/-- A path is a list of components (`["cache", "rev-opt", "build.py"]`). -/
abbrev FsPath := List String

/-- The file system: the set of paths that exist, as a list (membership is
what matters). -/
abbrev FS := List FsPath

/-- `os.path.exists`. -/
def pathExists (fs : FS) (p : FsPath) : Bool := decide (p ∈ fs)

/-- `tools.touch` / `tools.makedirs`: make the path exist. -/
def touch (fs : FS) (p : FsPath) : FS := if pathExists fs p then fs else p :: fs

/-- `shutil.rmtree`: remove the path and everything below it. -/
def removeTree (fs : FS) (p : FsPath) : FS :=
  fs.filter (fun q => !(p.isPrefixOf q))

/-- Add a batch of paths (the files produced by a successful checkout). -/
def addFiles (fs : FS) (ps : List FsPath) : FS := fs ++ ps

namespace CachedRevision

/-- Inputs of one `cache` run that come from outside the function: the exit
code of the `hg archive` checkout command, the relative paths it creates on
success inside the target directory, and the exit code of `./build.py`. -/
structure Env where
  checkoutRetcode : Int
  checkoutFiles : List FsPath
  buildRetcode : Int

/-- The observable actions of `CachedRevision.cache`, in order. -/
inductive CacheEvent
  | checkout
  | rmtreeTarget
  | build
  | touchSentinel
  | cleanup
deriving DecidableEq

/-- Whether the operation returned normally or died in `logging.critical`. -/
inductive Outcome
  | ok
  | fatal (msg : String)
deriving DecidableEq

/-- Result of `cache` / `_compile`: the event trace, the final file system,
the outcome, and the artifact path `self._path`. -/
structure CacheResult where
  events : List CacheEvent
  fs : FS
  outcome : Outcome
  path : FsPath
deriving DecidableEq

/-- `CachedRevision._get_cached_revision_name`:
`'-'.join([self.global_rev] + self.build_options)`. -/
def _get_cached_revision_name (globalRev : String) (buildOptions : List String) : String :=
  String.intercalate "-" (globalRev :: buildOptions)

/-- `CachedRevision._get_sentinel_file`: the `build_successful` marker inside
the target directory. -/
def _get_sentinel_file (target : FsPath) : FsPath := target ++ ["build_successful"]

/-- The target directory `self._path`:
`os.path.join(revision_cache_dir, self._get_cached_revision_name())`. -/
def cachePath (revisionCacheDir : FsPath) (globalRev : String)
    (buildOptions : List String) : FsPath :=
  revisionCacheDir ++ [_get_cached_revision_name globalRev buildOptions]

/-- Which paths (relative to the target directory) `CachedRevision._cleanup`
removes: everything under `builds/*/*` except the `bin` directories, the
`build.py` script, and the `src` tree (packed into `src.tar.xz`). -/
def cleanupRemovesRel (rel : List String) : Bool :=
  match rel with
  | ["build.py"] => true
  | "builds" :: _ :: y :: _ => y != "bin"
  | "src" :: _ => true
  | _ => false

/-- `CachedRevision._cleanup` on the file system: prune non-`bin` build
output, drop `build.py`, pack the `src` tree into `src.tar.xz`. -/
def _cleanup (fs : FS) (target : FsPath) : FS :=
  (target ++ ["src.tar.xz"]) ::
    fs.filter (fun q =>
      !(target.isPrefixOf q && cleanupRemovesRel (q.drop target.length)))

/-- `CachedRevision._compile`: fatal if `build.py` is absent; otherwise run
`./build.py` with the build options and touch the sentinel exactly when the
build command exits with code 0. -/
def _compile (env : Env) (fs : FS) (target : FsPath) : CacheResult :=
  if !(pathExists fs (target ++ ["build.py"])) then
    ⟨[], fs, .fatal "build.py not found. Please merge with master.", target⟩
  else if env.buildRetcode == 0 then
    ⟨[.build, .touchSentinel], touch fs (_get_sentinel_file target), .ok, target⟩
  else
    ⟨[.build], fs, .fatal "Build failed", target⟩

/-- `CachedRevision.cache`: compute the target directory from the cache root
and the derived revision name; if it exists, accept it only with the
sentinel present; otherwise create it, check out (removing the target and
failing fatally on a non-zero checkout exit code), compile and clean up. -/
def cache (env : Env) (fs : FS) (revisionCacheDir : FsPath)
    (globalRev : String) (buildOptions : List String) : CacheResult :=
  let target := cachePath revisionCacheDir globalRev buildOptions
  if pathExists fs target then
    if !(pathExists fs (_get_sentinel_file target)) then
      ⟨[], fs, .fatal "corrupted cache entry", target⟩
    else
      ⟨[], fs, .ok, target⟩
  else
    let fs1 := touch fs target
    if env.checkoutRetcode != 0 then
      ⟨[.checkout, .rmtreeTarget], removeTree fs1 target, .fatal "Failed to make checkout.", target⟩
    else
      let fs2 := addFiles fs1 (env.checkoutFiles.map (fun r => target ++ r))
      let c := _compile env fs2 target
      match c.outcome with
      | .ok => ⟨.checkout :: c.events ++ [.cleanup], _cleanup c.fs target, .ok, target⟩
      | .fatal m => ⟨.checkout :: c.events, c.fs, .fatal m, target⟩

end CachedRevision

namespace Fetcher

/-- A scalar or list property value of a run (the schemaless per-run
property mapping holds strings, lists of strings, numbers, booleans and
null). -/
inductive PValue
  | str (s : String)
  | strList (l : List String)
  | num (n : Int)
  | bool (b : Bool)
  | null
deriving DecidableEq

/-- A run's property mapping, as an association list (keys are unique). -/
abbrev Props := List (String × PValue)

/-- Dictionary lookup `props[k]` / `props.get(k)`. -/
def getProp (props : Props) (k : String) : Option PValue :=
  (props.find? (fun kv => kv.1 == k)).map (fun kv => kv.2)

/-- Python truthiness of a property value. -/
def truthy : PValue → Bool
  | .str s => s != ""
  | .strList l => !l.isEmpty
  | .num n => n != 0
  | .bool b => b
  | .null => false

/-- The state of one run directory's `properties` file, after the parsers
have been invoked on the directory. -/
inductive PropsFile
  | missing
  | malformed
  | wellFormed (props : Props)
deriving DecidableEq

/-- Modelled from the spec: the loading step of
`tools.Properties(filename=prop_file)` — `lab/tools.py` is not among the
sources.  Per the spec's collector contract, "a missing or malformed
per-run property file yields a run entry with only an `error` property";
the exact error string is unspecified, only that `error` is the sole
key. -/
def loadRunProperties : PropsFile → Props
  | .missing => [("error", .str "unexplained:properties-file-missing")]
  | .malformed => [("error", .str "unexplained:properties-file-malformed")]
  | .wellFormed props => props

/-- Python `str.startswith`: the pattern is a prefix of the string
(computed on the character lists so that it evaluates). -/
def strStartsWith (s pat : String) : Bool := pat.data.isPrefixOf s.data

/-- `Fetcher.fetch_dir`: run the parsers in the run directory (already
reflected in the `PropsFile` state) and load the per-run `properties`
file. -/
def fetch_dir (rd : PropsFile) : Props := loadRunProperties rd

/-- The Python exceptions the fetch code can raise. -/
inductive PyError
  | keyError (k : String)
  | typeError
  | attributeError
deriving DecidableEq

/-- `'-'.join(props['id'])`: joining a list of strings concatenates them
with `-`; joining a plain string iterates its characters; joining any
other value raises `TypeError`. -/
def joinId : PValue → Except PyError String
  | .strList l => .ok (String.intercalate "-" l)
  | .str s => .ok (String.intercalate "-" (s.data.map (fun c => String.mk [c])))
  | _ => .error .typeError

/-- Dictionary assignment `store[k] = v` (overwrite in place or append). -/
def setStore (store : List (String × Props)) (k : String) (v : Props) :
    List (String × Props) :=
  if store.any (fun kv => kv.1 == k) then
    store.map (fun kv => if kv.1 == k then (k, v) else kv)
  else store ++ [(k, v)]

/-- `dict.update`: merge `src` into `dst`, last writer wins per run id. -/
def updateStore (dst src : List (String × Props)) : List (String × Props) :=
  src.foldl (fun acc kv => setStore acc kv.1 kv.2) dst

/-- The scanning loop of `Fetcher.__call__` over the sorted run
directories: `props = self.fetch_dir(run_dir)`,
`id_string = '-'.join(props['id'])`, `new_props[id_string] = props`.  A
`KeyError` on a run without an `id` property aborts the whole loop. -/
def collectRunsAux (acc : List (String × Props)) :
    List PropsFile → Except PyError (List (String × Props))
  | [] => .ok acc
  | rd :: rest =>
      let props := fetch_dir rd
      match getProp props "id" with
      | none => .error (.keyError "id")
      | some v =>
          match joinId v with
          | .error e => .error e
          | .ok idString => collectRunsAux (setStore acc idString props) rest

/-- The scanning loop of `Fetcher.__call__`, starting from an empty
`new_props` store. -/
def collectRuns (rds : List PropsFile) : Except PyError (List (String × Props)) :=
  collectRunsAux [] rds

/-- One iteration of the unexplained-error loop of `Fetcher.__call__`:
`error = props.get('error', 'unexplained:attribute-error-missing')`, then
`if error and error.startswith('unexplained')` — on a hit, the warning
message formats `props[run_dir]` (a `KeyError` when absent) and the run is
counted.  A truthy non-string `error` raises `AttributeError` at
`.startswith`. -/
def unexplainedCheck (props : Props) : Except PyError (Option (PValue × String)) :=
  let error := (getProp props "error").getD (.str "unexplained:attribute-error-missing")
  if truthy error then
    match error with
    | .str s =>
        if strStartsWith s "unexplained" then
          match getProp props "run_dir" with
          | some rd => .ok (some (rd, s))
          | none => .error (.keyError "run_dir")
        else .ok none
    | _ => .error .attributeError
  else .ok none

/-- The condition under which the loop warns about and counts a run: its
`error` is absent (the attribute-missing default applies) or is a truthy
string starting with `unexplained`. -/
def unexplainedFlag (props : Props) : Bool :=
  match (getProp props "error").getD (.str "unexplained:attribute-error-missing") with
  | .str s => s != "" && strStartsWith s "unexplained"
  | _ => false

/-- The `error` property, when present, is a string value (the loop would
raise `AttributeError` at `.startswith` on a truthy non-string). -/
def errorIsStr (props : Props) : Bool :=
  match getProp props "error" with
  | some (.str _) => true
  | some _ => false
  | none => true

/-- The run carries a `run_dir` property (whose absence makes the warning
format raise `KeyError`). -/
def hasRunDir (props : Props) : Bool := (getProp props "run_dir").isSome

/-- The observable actions of the tail of `Fetcher.__call__`. -/
inductive FetchEvent
  | warned (runDir : PValue) (error : String)
  | madeDirs
  | wroteProps
  | fatal (msg : String)
deriving DecidableEq

/-- The unexplained-error loop of `Fetcher.__call__` over
`combined_props.values()`: one warning per flagged run, and the count of
flagged runs. -/
def summarizeErrors : List Props → Except PyError (Nat × List FetchEvent)
  | [] => .ok (0, [])
  | props :: rest => do
      let head ← unexplainedCheck props
      let (n, evs) ← summarizeErrors rest
      match head with
      | some (rd, err) => .ok (n + 1, .warned rd err :: evs)
      | none => .ok (n, evs)

/-- The tail of `Fetcher.__call__` after the merge: the unexplained-error
scan, then `tools.makedirs(eval_dir)` and `combined_props.write()`, and
only then — when the count is non-zero — the fatal error. -/
def fetchFinalize (runs : List Props) : Except PyError (List FetchEvent) := do
  let (n, evs) ← summarizeErrors runs
  .ok (evs ++ [.madeDirs, .wroteProps] ++
    (if n ≠ 0 then
      [.fatal ("There were " ++ toString n ++ " runs with unexplained errors.")]
    else []))

/-- `Fetcher.__call__` for a fetch from a raw experiment directory with no
filter: scan the run directories, merge the collected store into the
pre-existing destination store (`combined_props.update(new_props)`), then
run the final error scan, persistence and fatal-at-end check. -/
def fetcherCall (existing : List (String × Props)) (runDirs : List PropsFile) :
    Except PyError (List FetchEvent) := do
  let collected ← collectRuns runDirs
  let combined := updateStore existing collected
  fetchFinalize (combined.map (fun kv => kv.2))

end Fetcher

theorem mem_touch_self (fs : FS) (p : FsPath) : p ∈ touch fs p := by
  unfold touch pathExists
  split
  · next h => exact of_decide_eq_true h
  · exact List.mem_cons_self p fs

theorem mem_touch_of_mem {fs : FS} {q : FsPath} (p : FsPath) (h : q ∈ fs) :
    q ∈ touch fs p := by
  unfold touch
  split
  · exact h
  · exact List.mem_cons_of_mem p h

/-- C1: in every execution of `CachedRevision._compile` in which the build
command runs (`build.py` is present), the `build_successful` sentinel is
touched if and only if the build command exits with code 0; when it is
touched, the event trace is exactly the build followed by the sentinel
write (so the write is strictly after the build completes); and if the
sentinel was absent before, its presence afterwards implies the build
succeeded. -/
theorem compile_sentinel_iff_build_success
    (env : CachedRevision.Env) (fs : FS) (target : FsPath)
    (hbp : pathExists fs (target ++ ["build.py"]) = true) :
    ((CachedRevision.CacheEvent.touchSentinel ∈ (CachedRevision._compile env fs target).events)
        ↔ env.buildRetcode = 0)
    ∧ (env.buildRetcode = 0 →
        (CachedRevision._compile env fs target).events
          = [CachedRevision.CacheEvent.build, CachedRevision.CacheEvent.touchSentinel])
    ∧ (pathExists fs (CachedRevision._get_sentinel_file target) = false →
        pathExists (CachedRevision._compile env fs target).fs
            (CachedRevision._get_sentinel_file target) = true →
        env.buildRetcode = 0) := by
  by_cases h : env.buildRetcode = 0
  · simp [CachedRevision._compile, hbp, h]
  · simp [CachedRevision._compile, hbp, h]

/-- Witness for C1 at a concrete input: a file system holding
`t/build.py`, build exit code 0. -/
theorem compile_sentinel_iff_build_success_witness :
    ((CachedRevision.CacheEvent.touchSentinel ∈
        (CachedRevision._compile ⟨0, [], 0⟩ [["t", "build.py"]] ["t"]).events)
        ↔ (CachedRevision.Env.mk 0 [] 0).buildRetcode = 0)
    ∧ ((CachedRevision.Env.mk 0 [] 0).buildRetcode = 0 →
        (CachedRevision._compile ⟨0, [], 0⟩ [["t", "build.py"]] ["t"]).events
          = [CachedRevision.CacheEvent.build, CachedRevision.CacheEvent.touchSentinel])
    ∧ (pathExists [["t", "build.py"]] (CachedRevision._get_sentinel_file ["t"]) = false →
        pathExists (CachedRevision._compile ⟨0, [], 0⟩ [["t", "build.py"]] ["t"]).fs
            (CachedRevision._get_sentinel_file ["t"]) = true →
        (CachedRevision.Env.mk 0 [] 0).buildRetcode = 0) :=
  compile_sentinel_iff_build_success ⟨0, [], 0⟩ [["t", "build.py"]] ["t"] (by decide)

/-- C2: when the target directory already exists but the sentinel file is
missing, `CachedRevision.cache` fails fatally with the corrupted-entry
error, runs no checkout, no build and no removal (empty event trace), and
leaves the file system exactly as it was — in particular it never returns
such an entry as a cache hit. -/
theorem cache_missing_sentinel_corrupted
    (env : CachedRevision.Env) (fs : FS) (root : FsPath) (rev : String)
    (opts : List String)
    (hdir : pathExists fs (CachedRevision.cachePath root rev opts) = true)
    (hsent : pathExists fs
        (CachedRevision._get_sentinel_file (CachedRevision.cachePath root rev opts)) = false) :
    CachedRevision.cache env fs root rev opts =
      ⟨[], fs, CachedRevision.Outcome.fatal "corrupted cache entry",
        CachedRevision.cachePath root rev opts⟩ := by
  unfold CachedRevision.cache
  simp [hdir, hsent]

/-- Witness for C2 at a concrete input: the entry directory `c/r` exists
without a sentinel inside it. -/
theorem cache_missing_sentinel_corrupted_witness :
    CachedRevision.cache ⟨0, [], 0⟩ [["c", "r"]] ["c"] "r" [] =
      ⟨[], [["c", "r"]], CachedRevision.Outcome.fatal "corrupted cache entry",
        CachedRevision.cachePath ["c"] "r" []⟩ :=
  cache_missing_sentinel_corrupted ⟨0, [], 0⟩ [["c", "r"]] ["c"] "r" []
    (by decide) (by decide)

/-- C3: when the target directory does not yet exist and the checkout
command exits with a non-zero code, `CachedRevision.cache` removes the
freshly created target directory tree (the trace is checkout followed by
the removal, then the fatal error), and afterwards no path at or below the
target exists. -/
theorem cache_checkout_failure_removes_target
    (env : CachedRevision.Env) (fs : FS) (root : FsPath) (rev : String)
    (opts : List String)
    (hdir : pathExists fs (CachedRevision.cachePath root rev opts) = false)
    (hco : env.checkoutRetcode ≠ 0) :
    (CachedRevision.cache env fs root rev opts).outcome
      = CachedRevision.Outcome.fatal "Failed to make checkout."
    ∧ (CachedRevision.cache env fs root rev opts).events
      = [CachedRevision.CacheEvent.checkout, CachedRevision.CacheEvent.rmtreeTarget]
    ∧ ∀ q : FsPath, (CachedRevision.cachePath root rev opts).isPrefixOf q = true →
        q ∉ (CachedRevision.cache env fs root rev opts).fs := by
  have hEq : CachedRevision.cache env fs root rev opts =
      ⟨[CachedRevision.CacheEvent.checkout, CachedRevision.CacheEvent.rmtreeTarget],
        removeTree (touch fs (CachedRevision.cachePath root rev opts))
          (CachedRevision.cachePath root rev opts),
        CachedRevision.Outcome.fatal "Failed to make checkout.",
        CachedRevision.cachePath root rev opts⟩ := by
    unfold CachedRevision.cache
    simp [hdir, hco]
  rw [hEq]
  refine ⟨rfl, rfl, ?_⟩
  intro q hq hmem
  rw [removeTree, List.mem_filter] at hmem
  rw [hq] at hmem
  simp at hmem

/-- Witness for C3 at a concrete input: empty file system, checkout exit
code 1. -/
theorem cache_checkout_failure_removes_target_witness :
    (CachedRevision.cache ⟨1, [], 0⟩ [] ["c"] "r" []).outcome
      = CachedRevision.Outcome.fatal "Failed to make checkout."
    ∧ (CachedRevision.cache ⟨1, [], 0⟩ [] ["c"] "r" []).events
      = [CachedRevision.CacheEvent.checkout, CachedRevision.CacheEvent.rmtreeTarget]
    ∧ ∀ q : FsPath, (CachedRevision.cachePath ["c"] "r" []).isPrefixOf q = true →
        q ∉ (CachedRevision.cache ⟨1, [], 0⟩ [] ["c"] "r" []).fs :=
  cache_checkout_failure_removes_target ⟨1, [], 0⟩ [] ["c"] "r" []
    (by decide) (by decide)

theorem mem_touch_elim {fs : FS} {p q : FsPath} (h : q ∈ touch fs p) :
    q = p ∨ q ∈ fs := by
  unfold touch at h
  split at h
  · exact Or.inr h
  · exact List.mem_cons.mp h

theorem mem_cleanup_of_mem {fs : FS} {target q : FsPath} (hq : q ∈ fs)
    (hkeep : (target.isPrefixOf q
        && CachedRevision.cleanupRemovesRel (q.drop target.length)) = false) :
    q ∈ CachedRevision._cleanup fs target := by
  rw [CachedRevision._cleanup]
  exact List.mem_cons_of_mem _ (List.mem_filter.mpr ⟨hq, by rw [hkeep]; rfl⟩)

/-- After checkout into a fresh target, the sentinel path exists only if it
was already in the file system or among the checked-out files. -/
theorem sentinel_not_in_checkout {fs : FS} {target : FsPath}
    {files : List FsPath}
    (hfs : target ++ ["build_successful"] ∉ fs)
    (hfiles : ["build_successful"] ∉ files) :
    target ++ ["build_successful"] ∉
      addFiles (touch fs target) (files.map (fun r => target ++ r)) := by
  intro hmem
  rw [addFiles, List.mem_append] at hmem
  cases hmem with
  | inl h =>
    cases mem_touch_elim h with
    | inl heq => simpa using congrArg List.length heq
    | inr hin => exact hfs hin
  | inr h =>
    rw [List.mem_map] at h
    obtain ⟨r, hr, heq⟩ := h
    rw [List.append_right_inj] at heq
    exact hfiles (heq ▸ hr)

/-- C7: when the target directory is fresh, the checkout succeeds and the
build command exits with a non-zero code, `CachedRevision.cache` fails
fatally with the build-failed error while the target directory is left
present on disk and the sentinel is not written — asymmetric with the
checkout-failure case, which removes the target. -/
theorem cache_build_failure_leaves_target
    (env : CachedRevision.Env) (fs : FS) (root : FsPath) (rev : String)
    (opts : List String)
    (hdir : pathExists fs (CachedRevision.cachePath root rev opts) = false)
    (hsent : CachedRevision._get_sentinel_file (CachedRevision.cachePath root rev opts) ∉ fs)
    (hco : env.checkoutRetcode = 0)
    (hbp : ["build.py"] ∈ env.checkoutFiles)
    (hnosent : ["build_successful"] ∉ env.checkoutFiles)
    (hbuild : env.buildRetcode ≠ 0) :
    (CachedRevision.cache env fs root rev opts).outcome
      = CachedRevision.Outcome.fatal "Build failed"
    ∧ pathExists (CachedRevision.cache env fs root rev opts).fs
        (CachedRevision.cachePath root rev opts) = true
    ∧ pathExists (CachedRevision.cache env fs root rev opts).fs
        (CachedRevision._get_sentinel_file (CachedRevision.cachePath root rev opts)) = false := by
  have hbp2 : pathExists
      (addFiles (touch fs (CachedRevision.cachePath root rev opts))
        (env.checkoutFiles.map (fun r => CachedRevision.cachePath root rev opts ++ r)))
      (CachedRevision.cachePath root rev opts ++ ["build.py"]) = true := by
    rw [pathExists, decide_eq_true_eq, addFiles, List.mem_append]
    exact Or.inr (List.mem_map.mpr ⟨["build.py"], hbp, rfl⟩)
  have hEq : CachedRevision.cache env fs root rev opts =
      ⟨[CachedRevision.CacheEvent.checkout, CachedRevision.CacheEvent.build],
        addFiles (touch fs (CachedRevision.cachePath root rev opts))
          (env.checkoutFiles.map (fun r => CachedRevision.cachePath root rev opts ++ r)),
        CachedRevision.Outcome.fatal "Build failed",
        CachedRevision.cachePath root rev opts⟩ := by
    unfold CachedRevision.cache
    simp [hdir, hco, CachedRevision._compile, hbp2, hbuild]
  rw [hEq]
  refine ⟨rfl, ?_, ?_⟩
  · rw [pathExists, decide_eq_true_eq, addFiles, List.mem_append]
    exact Or.inl (mem_touch_self fs _)
  · rw [pathExists, decide_eq_false_iff_not]
    exact sentinel_not_in_checkout hsent hnosent

/-- Witness for C7 at a concrete input: empty file system, checkout exit
code 0 producing just `build.py`, build exit code 1. -/
theorem cache_build_failure_leaves_target_witness :
    (CachedRevision.cache ⟨0, [["build.py"]], 1⟩ [] ["c"] "r" []).outcome
      = CachedRevision.Outcome.fatal "Build failed"
    ∧ pathExists (CachedRevision.cache ⟨0, [["build.py"]], 1⟩ [] ["c"] "r" []).fs
        (CachedRevision.cachePath ["c"] "r" []) = true
    ∧ pathExists (CachedRevision.cache ⟨0, [["build.py"]], 1⟩ [] ["c"] "r" []).fs
        (CachedRevision._get_sentinel_file (CachedRevision.cachePath ["c"] "r" [])) = false :=
  cache_build_failure_leaves_target ⟨0, [["build.py"]], 1⟩ [] ["c"] "r" []
    (by decide) (by decide) (by decide) (by decide) (by decide) (by decide)

/-- A fresh, fully successful `cache` run: checkout, build, sentinel write
and cleanup, in this order, ending in the cleaned-up file system. -/
theorem cache_fresh_success_eq
    (env : CachedRevision.Env) (fs : FS) (root : FsPath) (rev : String)
    (opts : List String)
    (hdir : pathExists fs (CachedRevision.cachePath root rev opts) = false)
    (hco : env.checkoutRetcode = 0)
    (hbuild : env.buildRetcode = 0)
    (hbp : ["build.py"] ∈ env.checkoutFiles) :
    CachedRevision.cache env fs root rev opts =
      ⟨[CachedRevision.CacheEvent.checkout, CachedRevision.CacheEvent.build,
          CachedRevision.CacheEvent.touchSentinel, CachedRevision.CacheEvent.cleanup],
        CachedRevision._cleanup
          (touch (addFiles (touch fs (CachedRevision.cachePath root rev opts))
              (env.checkoutFiles.map (fun r => CachedRevision.cachePath root rev opts ++ r)))
            (CachedRevision._get_sentinel_file (CachedRevision.cachePath root rev opts)))
          (CachedRevision.cachePath root rev opts),
        CachedRevision.Outcome.ok,
        CachedRevision.cachePath root rev opts⟩ := by
  have hbp2 : pathExists
      (addFiles (touch fs (CachedRevision.cachePath root rev opts))
        (env.checkoutFiles.map (fun r => CachedRevision.cachePath root rev opts ++ r)))
      (CachedRevision.cachePath root rev opts ++ ["build.py"]) = true := by
    rw [pathExists, decide_eq_true_eq, addFiles, List.mem_append]
    exact Or.inr (List.mem_map.mpr ⟨["build.py"], hbp, rfl⟩)
  unfold CachedRevision.cache
  simp [hdir, hco, CachedRevision._compile, hbp2, hbuild]

/-- A `cache` call that finds the target directory with its sentinel is a
pure cache hit: no events, unchanged file system, success. -/
theorem cache_hit_eq
    (env : CachedRevision.Env) (fs : FS) (root : FsPath) (rev : String)
    (opts : List String)
    (htar : pathExists fs (CachedRevision.cachePath root rev opts) = true)
    (hsen : pathExists fs
        (CachedRevision._get_sentinel_file (CachedRevision.cachePath root rev opts)) = true) :
    CachedRevision.cache env fs root rev opts =
      ⟨[], fs, CachedRevision.Outcome.ok, CachedRevision.cachePath root rev opts⟩ := by
  unfold CachedRevision.cache
  simp [htar, hsen]

/-- C5: `cache` is idempotent for a given revision key and cache root.  A
first call on a fresh target that checks out and builds successfully ends
in `ok`; a second call (under any exit codes at all) returns the same
artifact path, performs no checkout and no build (empty event trace) and
leaves the file system untouched. -/
theorem cache_idempotent
    (env env2 : CachedRevision.Env) (fs : FS) (root : FsPath) (rev : String)
    (opts : List String)
    (hdir : pathExists fs (CachedRevision.cachePath root rev opts) = false)
    (hco : env.checkoutRetcode = 0)
    (hbuild : env.buildRetcode = 0)
    (hbp : ["build.py"] ∈ env.checkoutFiles) :
    (CachedRevision.cache env fs root rev opts).outcome = CachedRevision.Outcome.ok
    ∧ CachedRevision.cache env2 (CachedRevision.cache env fs root rev opts).fs root rev opts
        = ⟨[], (CachedRevision.cache env fs root rev opts).fs, CachedRevision.Outcome.ok,
            (CachedRevision.cache env fs root rev opts).path⟩
    ∧ (CachedRevision.cache env2 (CachedRevision.cache env fs root rev opts).fs root rev opts).path
        = (CachedRevision.cache env fs root rev opts).path := by
  rw [cache_fresh_success_eq env fs root rev opts hdir hco hbuild hbp]
  have hremBS : CachedRevision.cleanupRemovesRel ["build_successful"] = false := by rfl
  have htarMem : CachedRevision.cachePath root rev opts ∈
      CachedRevision._cleanup
        (touch (addFiles (touch fs (CachedRevision.cachePath root rev opts))
            (env.checkoutFiles.map (fun r => CachedRevision.cachePath root rev opts ++ r)))
          (CachedRevision._get_sentinel_file (CachedRevision.cachePath root rev opts)))
        (CachedRevision.cachePath root rev opts) := by
    refine mem_cleanup_of_mem (mem_touch_of_mem _ ?_) ?_
    · rw [addFiles, List.mem_append]
      exact Or.inl (mem_touch_self fs _)
    · rw [List.drop_length]
      have hremNil : CachedRevision.cleanupRemovesRel [] = false := by rfl
      rw [hremNil, Bool.and_false]
  have hsenMem : CachedRevision._get_sentinel_file (CachedRevision.cachePath root rev opts) ∈
      CachedRevision._cleanup
        (touch (addFiles (touch fs (CachedRevision.cachePath root rev opts))
            (env.checkoutFiles.map (fun r => CachedRevision.cachePath root rev opts ++ r)))
          (CachedRevision._get_sentinel_file (CachedRevision.cachePath root rev opts)))
        (CachedRevision.cachePath root rev opts) := by
    refine mem_cleanup_of_mem (mem_touch_self _ _) ?_
    rw [CachedRevision._get_sentinel_file, List.drop_left, hremBS, Bool.and_false]
  have h2 := cache_hit_eq env2 _ root rev opts
    (by rw [pathExists, decide_eq_true_eq]; exact htarMem)
    (by rw [pathExists, decide_eq_true_eq]; exact hsenMem)
  exact ⟨rfl, h2, by rw [h2]⟩

/-- Witness for C5 at a concrete input: empty file system, both commands
succeed, checkout produces `build.py`; the second call uses failing exit
codes to show they are never consulted. -/
theorem cache_idempotent_witness :
    (CachedRevision.cache ⟨0, [["build.py"]], 0⟩ [] ["c"] "r" []).outcome
        = CachedRevision.Outcome.ok
    ∧ CachedRevision.cache ⟨1, [], 1⟩
          (CachedRevision.cache ⟨0, [["build.py"]], 0⟩ [] ["c"] "r" []).fs ["c"] "r" []
        = ⟨[], (CachedRevision.cache ⟨0, [["build.py"]], 0⟩ [] ["c"] "r" []).fs,
            CachedRevision.Outcome.ok,
            (CachedRevision.cache ⟨0, [["build.py"]], 0⟩ [] ["c"] "r" []).path⟩
    ∧ (CachedRevision.cache ⟨1, [], 1⟩
          (CachedRevision.cache ⟨0, [["build.py"]], 0⟩ [] ["c"] "r" []).fs ["c"] "r" []).path
        = (CachedRevision.cache ⟨0, [["build.py"]], 0⟩ [] ["c"] "r" []).path :=
  cache_idempotent ⟨0, [["build.py"]], 0⟩ ⟨1, [], 1⟩ [] ["c"] "r" []
    (by decide) (by decide) (by decide) (by decide)

/-- C8: the cache directory name derivation is not injective: the same
name results from the single build option `a-b` and from the two options
`a`, `b` under the same global revision, although the two option lists
differ. -/
theorem cachedRevisionName_not_injective :
    CachedRevision._get_cached_revision_name "rev" ["a-b"] =
      CachedRevision._get_cached_revision_name "rev" ["a", "b"] ∧
    (["a-b"] : List String) ≠ ["a", "b"] := by
  constructor
  · rfl
  · decide

theorem unexplainedCheck_spec (props : Fetcher.Props)
    (h1 : Fetcher.errorIsStr props = true)
    (h2 : Fetcher.unexplainedFlag props = true → Fetcher.hasRunDir props = true) :
    ∃ r, Fetcher.unexplainedCheck props = Except.ok r
      ∧ r.isSome = Fetcher.unexplainedFlag props := by
  cases he : Fetcher.getProp props "error" with
  | none =>
      have hflag : Fetcher.unexplainedFlag props = true := by
        rw [Fetcher.unexplainedFlag, he]
        rfl
      have hsome : (Fetcher.getProp props "run_dir").isSome = true := h2 hflag
      obtain ⟨v, hv⟩ := Option.isSome_iff_exists.mp hsome
      refine ⟨some (v, "unexplained:attribute-error-missing"), ?_, by rw [hflag]; rfl⟩
      rw [Fetcher.unexplainedCheck, he]
      have ht : Fetcher.truthy (Fetcher.PValue.str "unexplained:attribute-error-missing") = true := by
        decide
      have hsw : Fetcher.strStartsWith "unexplained:attribute-error-missing" "unexplained" = true := by
        decide
      simp only [Option.getD_none, ht, if_true, hsw, hv]
  | some v =>
      rw [Fetcher.errorIsStr, he] at h1
      cases v with
      | str s =>
          by_cases hs : s = ""
          · subst hs
            refine ⟨none, ?_, ?_⟩
            · rw [Fetcher.unexplainedCheck, he]
              rfl
            · rw [Fetcher.unexplainedFlag, he]
              rfl
          · have htr : Fetcher.truthy (Fetcher.PValue.str s) = true := by
              rw [Fetcher.truthy, bne_iff_ne]
              exact hs
            cases hsw : Fetcher.strStartsWith s "unexplained" with
            | true =>
                have hflag : Fetcher.unexplainedFlag props = true := by
                  rw [Fetcher.unexplainedFlag, he]
                  simp only [Option.getD_some, hsw, Bool.and_true, bne_iff_ne, ne_eq]
                  exact hs
                have hsome : (Fetcher.getProp props "run_dir").isSome = true := h2 hflag
                obtain ⟨v', hv'⟩ := Option.isSome_iff_exists.mp hsome
                refine ⟨some (v', s), ?_, by rw [hflag]; rfl⟩
                rw [Fetcher.unexplainedCheck, he]
                simp only [Option.getD_some, htr, if_true, hsw, hv']
            | false =>
                refine ⟨none, ?_, ?_⟩
                · rw [Fetcher.unexplainedCheck, he]
                  simp only [Option.getD_some, htr, if_true, hsw]
                  rfl
                · rw [Fetcher.unexplainedFlag, he]
                  simp only [Option.getD_some, hsw, Bool.and_false]
                  rfl
      | strList l => cases h1
      | num n => cases h1
      | bool b => cases h1
      | null => cases h1

theorem summarizeErrors_spec (runs : List Fetcher.Props)
    (hstr : ∀ props ∈ runs, Fetcher.errorIsStr props = true)
    (hrd : ∀ props ∈ runs, Fetcher.unexplainedFlag props = true →
      Fetcher.hasRunDir props = true) :
    ∃ evs, Fetcher.summarizeErrors runs
      = Except.ok ((runs.filter Fetcher.unexplainedFlag).length, evs) := by
  induction runs with
  | nil => exact ⟨[], rfl⟩
  | cons props rest ih =>
      obtain ⟨evs, hevs⟩ := ih (fun p hp => hstr p (List.mem_cons_of_mem _ hp))
        (fun p hp => hrd p (List.mem_cons_of_mem _ hp))
      obtain ⟨r, hr, hrs⟩ := unexplainedCheck_spec props
        (hstr props (List.mem_cons_self _ _)) (hrd props (List.mem_cons_self _ _))
      cases r with
      | none =>
          have hflag : Fetcher.unexplainedFlag props = false := by
            rw [← hrs]
            rfl
          refine ⟨evs, ?_⟩
          rw [List.filter_cons_of_neg (by rw [hflag]; exact Bool.false_ne_true)]
          simp only [Fetcher.summarizeErrors, hr, hevs, bind, Except.bind]
      | some pr =>
          have hflag : Fetcher.unexplainedFlag props = true := by
            rw [← hrs]
            rfl
          refine ⟨Fetcher.FetchEvent.warned pr.1 pr.2 :: evs, ?_⟩
          rw [List.filter_cons_of_pos (by rw [hflag])]
          simp only [Fetcher.summarizeErrors, hr, hevs, bind, Except.bind, List.length_cons]

/-- C6: provided every run's `error` value is a string (or absent) and
every flagged run carries a `run_dir`, the tail of `Fetcher.__call__`
counts exactly the runs whose properties lack an `error` field or whose
`error` starts with `unexplained`, completes the merge persistence
(`makedirs` then the properties write), and raises the fatal error only
after the write, exactly when the count is non-zero. -/
theorem fetcher_write_precedes_fatal (runs : List Fetcher.Props)
    (hstr : ∀ props ∈ runs, Fetcher.errorIsStr props = true)
    (hrd : ∀ props ∈ runs, Fetcher.unexplainedFlag props = true →
      Fetcher.hasRunDir props = true) :
    ∃ n evs, Fetcher.summarizeErrors runs = Except.ok (n, evs)
      ∧ n = (runs.filter Fetcher.unexplainedFlag).length
      ∧ Fetcher.fetchFinalize runs
        = Except.ok (evs ++ [Fetcher.FetchEvent.madeDirs, Fetcher.FetchEvent.wroteProps]
            ++ (if n ≠ 0 then
                [Fetcher.FetchEvent.fatal
                  ("There were " ++ toString n ++ " runs with unexplained errors.")]
              else [])) := by
  obtain ⟨evs, hevs⟩ := summarizeErrors_spec runs hstr hrd
  refine ⟨(runs.filter Fetcher.unexplainedFlag).length, evs, hevs, rfl, ?_⟩
  simp only [Fetcher.fetchFinalize, hevs, bind, Except.bind]

/-- Witness for C6 at a concrete input: one flagged run (with `run_dir`)
and one run with a recognized error. -/
theorem fetcher_write_precedes_fatal_witness :
    ∃ n evs, Fetcher.summarizeErrors
        [[("error", Fetcher.PValue.str "unexplained:x"), ("run_dir", Fetcher.PValue.str "r1")],
          [("error", Fetcher.PValue.str "some-error")]] = Except.ok (n, evs)
      ∧ n = ([[("error", Fetcher.PValue.str "unexplained:x"), ("run_dir", Fetcher.PValue.str "r1")],
          [("error", Fetcher.PValue.str "some-error")]].filter Fetcher.unexplainedFlag).length
      ∧ Fetcher.fetchFinalize
          [[("error", Fetcher.PValue.str "unexplained:x"), ("run_dir", Fetcher.PValue.str "r1")],
            [("error", Fetcher.PValue.str "some-error")]]
        = Except.ok (evs ++ [Fetcher.FetchEvent.madeDirs, Fetcher.FetchEvent.wroteProps]
            ++ (if n ≠ 0 then
                [Fetcher.FetchEvent.fatal
                  ("There were " ++ toString n ++ " runs with unexplained errors.")]
              else [])) :=
  fetcher_write_precedes_fatal
    [[("error", Fetcher.PValue.str "unexplained:x"), ("run_dir", Fetcher.PValue.str "r1")],
      [("error", Fetcher.PValue.str "some-error")]]
    (by decide) (by decide)

/-- C9: on a merged store holding one run with no `error` property (so the
attribute-missing default applies) and no `run_dir` property, the
error-summarization loop of `Fetcher.__call__` raises `KeyError` while
formatting the warning; the whole tail aborts with that exception, so the
destination properties file is never written. -/
theorem fetcher_missing_run_dir_keyError :
    Fetcher.fetchFinalize [[("id", Fetcher.PValue.strList ["d", "p", "c1"])]]
      = Except.error (Fetcher.PyError.keyError "run_dir") := rfl

/-- C10: a run whose `error` property is present but the empty string is
neither warned about nor counted by the loop of `Fetcher.__call__`: the
truthiness test short-circuits before `.startswith`, so the run
contributes nothing to the summarization. -/
theorem fetcher_falsy_error_not_counted (props : Fetcher.Props)
    (rest : List Fetcher.Props)
    (h : Fetcher.getProp props "error" = some (Fetcher.PValue.str "")) :
    Fetcher.unexplainedCheck props = Except.ok none
    ∧ Fetcher.summarizeErrors (props :: rest) = Fetcher.summarizeErrors rest := by
  have h1 : Fetcher.unexplainedCheck props = Except.ok none := by
    rw [Fetcher.unexplainedCheck, h]
    rfl
  refine ⟨h1, ?_⟩
  cases hm : Fetcher.summarizeErrors rest with
  | error e => simp only [Fetcher.summarizeErrors, h1, hm, bind, Except.bind]
  | ok p =>
      cases p with
      | mk n evs => simp only [Fetcher.summarizeErrors, h1, hm, bind, Except.bind]

/-- Witness for C10 at a concrete input: a run with `error = ""` next to a
run with a recognized error. -/
theorem fetcher_falsy_error_not_counted_witness :
    Fetcher.unexplainedCheck [("error", Fetcher.PValue.str "")] = Except.ok none
    ∧ Fetcher.summarizeErrors
        [[("error", Fetcher.PValue.str "")], [("error", Fetcher.PValue.str "some-error")]]
      = Fetcher.summarizeErrors [[("error", Fetcher.PValue.str "some-error")]] :=
  fetcher_falsy_error_not_counted [("error", Fetcher.PValue.str "")]
    [[("error", Fetcher.PValue.str "some-error")]] (by decide)

/-- Counterexample to C4 as stated: a fetch over two run directories, the
second with a missing `properties` file, aborts the whole call with a
`KeyError` on `id` — `Fetcher.__call__` does not complete over the
remaining run directories. -/
theorem fetcher_missing_props_aborts_call :
    Fetcher.fetcherCall []
      [Fetcher.PropsFile.wellFormed [("id", Fetcher.PValue.strList ["d", "p", "c1"])],
        Fetcher.PropsFile.missing]
      = Except.error (Fetcher.PyError.keyError "id") := rfl

/-- C4 (amended): a missing or malformed per-run `properties` file does
yield a properties mapping whose only key is `error`, but the scanning
loop of `Fetcher.__call__` then aborts with a `KeyError` when it joins the
absent `id` property, instead of completing over the remaining run
directories. -/
theorem fetch_missing_props_error_entry_keyError (pf : Fetcher.PropsFile)
    (rds : List Fetcher.PropsFile)
    (h : pf = Fetcher.PropsFile.missing ∨ pf = Fetcher.PropsFile.malformed) :
    (Fetcher.fetch_dir pf).map (fun kv => kv.1) = ["error"]
    ∧ Fetcher.collectRuns (pf :: rds) = Except.error (Fetcher.PyError.keyError "id") := by
  cases h with
  | inl h =>
      subst h
      exact ⟨rfl, rfl⟩
  | inr h =>
      subst h
      exact ⟨rfl, rfl⟩

/-- Witness for the amended C4 at a concrete input: the missing-file case,
followed by one further (well-formed) run directory that is never
reached. -/
theorem fetch_missing_props_error_entry_keyError_witness :
    (Fetcher.fetch_dir Fetcher.PropsFile.missing).map (fun kv => kv.1) = ["error"]
    ∧ Fetcher.collectRuns [Fetcher.PropsFile.missing,
        Fetcher.PropsFile.wellFormed [("id", Fetcher.PValue.strList ["d", "p", "c1"])]]
      = Except.error (Fetcher.PyError.keyError "id") :=
  fetch_missing_props_error_entry_keyError Fetcher.PropsFile.missing
    [Fetcher.PropsFile.wellFormed [("id", Fetcher.PValue.strList ["d", "p", "c1"])]]
    (Or.inl rfl)
